import Mathlib

set_option maxHeartbeats 1000000

namespace RLCleaner

/-! Shallow embedding of `rl_cleaner_mvp.py`: the grid-cleaning environment
(`BaseEnv`), the replay buffer (`ReplayBuf`), the satellite-environment
construction, and the control/logging skeleton of `train`. -/

/-- Grid of cell labels: 0 = clean, 1 = contaminated (row-major list of rows). -/
abbrev Grid := List (List Nat)

/-- `self.grid[tuple(self.pos)]` (out-of-range reads default to 0). -/
def gget (g : Grid) (p : Nat × Nat) : Nat :=
  (g.getD p.1 []).getD p.2 0

/-- `self.grid[tuple(self.pos)] = v` (out-of-range writes are no-ops). -/
def gset (g : Grid) (p : Nat × Nat) (v : Nat) : Grid :=
  g.set p.1 ((g.getD p.1 []).set p.2 v)

/-- Nonzero entries of one row. -/
def rowDirty (row : List Nat) : Nat :=
  row.countP (fun x => x != 0)

/-- `np.count_nonzero(self.grid)`. -/
def countNonzero (g : Grid) : Nat :=
  (g.map rowDirty).sum

/-- `BaseEnv` mutable state: origin grid `grid0`, side length `N`,
working grid, agent position and episode step counter. -/
structure EnvState where
  grid0 : Grid
  N : Nat
  grid : Grid
  pos : Nat × Nat
  steps : Nat
deriving DecidableEq

/-- `CLEAN_R = 5.0` -/
def CLEAN_R : ℚ := 5

/-- `STEP_COST = -0.001` -/
def STEP_COST : ℚ := -(1/1000)

/-- `BORDER_PEN = -0.05` -/
def BORDER_PEN : ℚ := -(1/20)

/-- `min(max(x, 0), N - 1)` on Python ints, landing in `Nat`. -/
def clampInt (x : Int) (n : Nat) : Nat :=
  (min (max x 0) ((n : Int) - 1)).toNat

/-- `{0:(-1,0),1:(1,0),2:(0,-1),3:(0,1)}.get(a,(0,0))` -/
def delta (a : Nat) : Int × Int :=
  match a with
  | 0 => (-1, 0)
  | 1 => (1, 0)
  | 2 => (0, -1)
  | 3 => (0, 1)
  | _ => (0, 0)

namespace BaseEnv

/-- `BaseEnv.__init__`: store `grid0`, `N = grid.shape[0]`, then `reset()`. -/
def init (g : Grid) : EnvState :=
  { grid0 := g, N := g.length, grid := g
    pos := (g.length / 2, g.length / 2), steps := 0 }

/-- `BaseEnv.reset`: working grid back to origin copy, agent to center,
step counter to 0. -/
def reset (s : EnvState) : EnvState :=
  { s with grid := s.grid0, pos := (s.N / 2, s.N / 2), steps := 0 }

/-- `BaseEnv.step`: returns (new state, reward, done).  The returned
observation is the new state's working grid. -/
def step (s : EnvState) (a : Nat) : EnvState × ℚ × Bool :=
  if a = 4 ∧ gget s.grid s.pos = 1 then
    let s' : EnvState := { s with grid := gset s.grid s.pos 0, steps := s.steps + 1 }
    (s', CLEAN_R, decide (400 ≤ s'.steps) || decide (countNonzero s'.grid = 0))
  else
    let d := delta a
    let nr := clampInt ((s.pos.1 : Int) + d.1) s.N
    let nc := clampInt ((s.pos.2 : Int) + d.2) s.N
    let r : ℚ := if (nr, nc) = s.pos then STEP_COST + BORDER_PEN else STEP_COST
    let s' : EnvState := { s with pos := (nr, nc), steps := s.steps + 1 }
    (s', r, decide (400 ≤ s'.steps) || decide (countNonzero s'.grid = 0))

end BaseEnv

/-- Well-formed environment state: square grid of positive side `N`
(for both the working grid and the origin copy) and in-bounds agent. -/
def WFEnv (s : EnvState) : Prop :=
  s.N = s.grid.length ∧ s.N = s.grid0.length ∧ 0 < s.N ∧
  (∀ row ∈ s.grid, row.length = s.N) ∧ (∀ row ∈ s.grid0, row.length = s.N) ∧
  s.pos.1 < s.N ∧ s.pos.2 < s.N

instance (s : EnvState) : Decidable (WFEnv s) := by
  unfold WFEnv; infer_instance

/-- Square grid with positive side, as produced by the environment
constructors. -/
def WFGrid (g : Grid) : Prop :=
  0 < g.length ∧ ∀ row ∈ g, row.length = g.length

instance (g : Grid) : Decidable (WFGrid g) := by
  unfold WFGrid; infer_instance

/-- Environment states reachable through the public interface:
construction from a well-formed grid, `step` and `reset`. -/
inductive Reachable : EnvState → Prop where
  | init : ∀ g : Grid, WFGrid g → Reachable (BaseEnv.init g)
  | step : ∀ (s : EnvState) (a : Nat), Reachable s → Reachable (BaseEnv.step s a).1
  | reset : ∀ s : EnvState, Reachable s → Reachable (BaseEnv.reset s)

/-- The unclamped translation target `pos + delta a` of a move. -/
def moveTarget (s : EnvState) (a : Nat) : Int × Int :=
  ((s.pos.1 : Int) + (delta a).1, (s.pos.2 : Int) + (delta a).2)

/-- The unclamped move target lies inside `[0, N-1] × [0, N-1]`. -/
def targetInBounds (s : EnvState) (a : Nat) : Prop :=
  0 ≤ (moveTarget s a).1 ∧ (moveTarget s a).1 < (s.N : Int) ∧
  0 ≤ (moveTarget s a).2 ∧ (moveTarget s a).2 < (s.N : Int)

instance (s : EnvState) (a : Nat) : Decidable (targetInBounds s a) := by
  unfold targetInBounds; infer_instance

/-! Replay buffer: `collections.deque(maxlen=cap)` keeps the rightmost
`cap` entries; `push` appends on the right. -/

structure ReplayBuf (α : Type) where
  cap : Nat
  buf : List α
deriving DecidableEq

/-- `ReplayBuf.__init__` with explicit capacity (source default 40 000,
see `REPLAY_CAP`). -/
def mkReplayBuf {α : Type} (cap : Nat) : ReplayBuf α :=
  { cap := cap, buf := [] }

/-- `cap: int = 40_000`, the default capacity used by `train`. -/
def REPLAY_CAP : Nat := 40000

/-- `ReplayBuf.push`: append on the right; the deque drops from the left
whatever exceeds the capacity. -/
def ReplayBuf.push {α : Type} (rb : ReplayBuf α) (x : α) : ReplayBuf α :=
  { rb with buf := (rb.buf ++ [x]).drop (rb.buf.length + 1 - rb.cap) }

/-- Fold a whole list of pushes. -/
def pushAll {α : Type} (rb : ReplayBuf α) (xs : List α) : ReplayBuf α :=
  xs.foldl ReplayBuf.push rb

/-! The training loop of `train`, with the torch specifics (network
parameters, gradient step, ε-greedy randomness) abstracted: `θ` is the
parameter space, `learn` the Adam/Huber update on a sampled batch, and
the chosen actions are an oracle stream indexed by the cumulative step
count. -/

/-- A stored transition `(state, action, reward, next_state, done)`;
states are flattened observations. -/
abbrev Trans := List Nat × Nat × ℚ × List Nat × Bool

/-- `obs.reshape(-1)` on a row-major grid. -/
def flattenGrid (g : Grid) : List Nat :=
  g.flatten

/-- In-loop training state: environment, policy and target parameters,
replay buffer, cumulative step counter and episode reward accumulator. -/
structure LoopState (θ : Type) where
  env : EnvState
  policy : θ
  target : θ
  rb : ReplayBuf Trans
  steps : Nat
  totalR : ℚ

/-- One iteration of the `while not done` body: env step, replay push
(skipped in demo), cumulative step increment, guarded learn step, and the
hard target sync `if steps % sync == 0` with `sync = 750`. -/
def trainIter {θ : Type} (learn : θ → θ → ReplayBuf Trans → θ) (a : Nat)
    (demo : Bool) (s : LoopState θ) : LoopState θ × Bool :=
  let st := flattenGrid s.env.grid
  let out := BaseEnv.step s.env a
  let rb' := if demo then s.rb
    else s.rb.push (st, a, out.2.1, flattenGrid out.1.grid, out.2.2)
  let steps' := s.steps + 1
  let policy' := if demo = false ∧ 64 ≤ rb'.buf.length
    then learn s.policy s.target rb' else s.policy
  let target' := if steps' % 750 = 0 then policy' else s.target
  ({ env := out.1, policy := policy', target := target', rb := rb',
     steps := steps', totalR := s.totalR + out.2.1 }, out.2.2)

/-- The episode loop, fuelled.  An episode is done after at most 400 env
steps (the horizon in `BaseEnv.step`), so fuel 401 from a reset
environment makes the zero-fuel case unreachable. -/
def runEpisodeFuel {θ : Type} (acts : Nat → Nat) (demo : Bool)
    (learn : θ → θ → ReplayBuf Trans → θ) : Nat → LoopState θ → LoopState θ
  | 0, s => s
  | f + 1, s =>
    let res := trainIter learn (acts s.steps) demo s
    if res.2 then res.1 else runEpisodeFuel acts demo learn f res.1

/-- One episode: `env.reset()` happens in `trainLoop` before calling this. -/
def runEpisode {θ : Type} (acts : Nat → Nat) (demo : Bool)
    (learn : θ → θ → ReplayBuf Trans → θ) (s : LoopState θ) : LoopState θ :=
  runEpisodeFuel acts demo learn 401 s

/-- `eps = 0.05 if demo else 1.0` -/
def epsInit (demo : Bool) : ℚ :=
  if demo then 1/20 else 1

/-- End-of-episode ε update: `if not demo: eps = max(eps*decay, 0.05)`
with `decay = 0.997`. -/
def epsNext (demo : Bool) (e : ℚ) : ℚ :=
  if demo then e else max (e * (997/1000)) (1/20)

/-- ε across completed episodes, iterating `epsNext` from `epsInit`. -/
def epsSeq (demo : Bool) : Nat → ℚ
  | 0 => epsInit demo
  | n + 1 => epsNext demo (epsSeq demo n)

/-- `Path.write_text(data, **kwargs)`: accepts only the keyword arguments
`encoding`, `errors`, `newline`; any other keyword raises `TypeError`
without touching the file; on success the file holds exactly `data`
(overwrite, not append). -/
def pathWriteText (data : String) (kwargs : List String) : Except String String :=
  match kwargs.find? (fun k => !(["encoding", "errors", "newline"].contains k)) with
  | some k => Except.error ("TypeError: write_text() got an unexpected keyword argument " ++ k)
  | none => Except.ok data

/-- The per-episode log line `f"{ep},{total_r:.2f}\n"` (numeric rendering
abstracted; the line is never successfully written). -/
def csvLine (ep : Nat) (totalR : ℚ) : String :=
  toString ep ++ "," ++ toString totalR ++ "\n"

/-- The `Ep {ep}: ...` progress line printed every 50 episodes. -/
def progressLine (ep : Nat) (totalR eps : ℚ) (buflen : Nat) : String :=
  "Ep " ++ toString ep ++ ": reward=" ++ toString totalR ++ ", eps=" ++
    toString eps ++ ", buf=" ++ toString buflen

/-- Split a character stream at newlines (structural, so it computes). -/
def splitNewlines : List Char → List Char → List (List Char)
  | [], acc => [acc.reverse]
  | c :: rest, acc =>
    if c = '\n' then acc.reverse :: splitNewlines rest []
    else splitNewlines rest (c :: acc)

/-- Data rows of the reward log: nonempty lines after the header. -/
def csvDataRows (file : Option String) : Nat :=
  match file with
  | none => 0
  | some c =>
    (((splitNewlines c.toList []).drop 1).filter (fun l => l ≠ [])).length

/-- The per-episode tail of `train`: run the episode from a reset
environment, write the log line with the invalid `append=False` keyword,
then (only on write success) decay ε, print progress every 50 episodes
and recurse.  Returns the final log file content, the emitted progress
lines, and either the uncaught exception or the returned policy together
with the end-of-run weight-save flag (`if not demo: torch.save(...)`). -/
def trainLoop {θ : Type} (learn : θ → θ → ReplayBuf Trans → θ)
    (acts : Nat → Nat) (demo : Bool) :
    Nat → Nat → LoopState θ → ℚ → Option String → List String →
    Option String × List String × Except String (θ × Bool)
  | 0, _, s, _, file, prints => (file, prints, Except.ok (s.policy, !demo))
  | rem + 1, ep, s, eps, file, prints =>
    let sEp := runEpisode acts demo learn
      { s with env := BaseEnv.reset s.env, totalR := 0 }
    match pathWriteText (csvLine ep sEp.totalR) ["append"] with
    | Except.error e => (file, prints, Except.error e)
    | Except.ok c =>
      let eps' := epsNext demo eps
      let prints' := if demo = false ∧ ep % 50 = 0
        then prints ++ [progressLine ep sEp.totalR eps' sEp.rb.buf.length]
        else prints
      trainLoop learn acts demo rem (ep + 1) sEp eps' (some c) prints'

/-- `train`: target initialized as a copy of the (possibly loaded) policy,
fresh default-capacity replay buffer, ε initialized by mode, CSV header
written only when the log file does not exist, then the episode loop. -/
def train {θ : Type} (learn : θ → θ → ReplayBuf Trans → θ)
    (acts : Nat → Nat) (demo : Bool) (policy0 : θ) (env : EnvState)
    (file0 : Option String) (episodes : Nat) :
    Option String × List String × Except String (θ × Bool) :=
  let file1 := if file0 = none then
      match pathWriteText "episode,reward\n" [] with
      | Except.ok c => some c
      | Except.error _ => file0
    else file0
  trainLoop learn acts demo episodes 1
    { env := env, policy := policy0, target := policy0,
      rb := mkReplayBuf REPLAY_CAP, steps := 0, totalR := 0 }
    (epsInit demo) file1 []

/-! Satellite environment construction.  The pillow decode and the
OpenCV HSV pipeline are external capabilities: presence is a flag, the
decoded image and the color-space mask computation are oracles. -/

/-- An RGB image as rows of (r, g, b) byte triples. -/
abbrev RGBImage := List (List (Nat × Nat × Nat))

/-- `load_image`: raises `ImportError` when pillow is absent, otherwise
yields the decoded, resized image (`decoded = none` models an unreadable
file). -/
def load_image (pillowAvailable : Bool) (decoded : Option RGBImage) :
    Except String RGBImage :=
  if pillowAvailable = false then
    Except.error "ImportError: Instala pillow para imágenes satelitales."
  else
    match decoded with
    | some img => Except.ok img
    | none => Except.error "cannot identify image file"

/-- `contamination_mask`: raises `ImportError` when OpenCV is absent,
otherwise applies the HSV heuristic `maskFn` (cvtColor + inRange). -/
def contamination_mask (cv2Available : Bool) (maskFn : RGBImage → Grid)
    (rgb : RGBImage) : Except String Grid :=
  if cv2Available = false then
    Except.error "ImportError: Instala opencv-python para detectar contaminación."
  else
    Except.ok (maskFn rgb)

/-- `SatelliteEnv` state: the base environment over the mask plus the
retained RGB image. -/
structure SatEnvState where
  base : EnvState
  rgb : RGBImage

/-- `SatelliteEnv.__init__`: load the image, derive the mask, only then
construct the base environment state. -/
def SatelliteEnv.init (pillowAvailable cv2Available : Bool)
    (decoded : Option RGBImage) (maskFn : RGBImage → Grid) :
    Except String SatEnvState :=
  match load_image pillowAvailable decoded with
  | Except.error e => Except.error e
  | Except.ok rgb =>
    match contamination_mask cv2Available maskFn rgb with
    | Except.error e => Except.error e
    | Except.ok mask => Except.ok { base := BaseEnv.init mask, rgb := rgb }

/-! List helper lemmas for reasoning about `gget`/`gset`/`countNonzero`. -/

lemma getD_set_of_ne {α : Type} (l : List α) (i j : Nat) (v d : α) (h : i ≠ j) :
    (l.set i v).getD j d = l.getD j d := by
  induction l generalizing i j with
  | nil => simp
  | cons a t ih =>
    cases i with
    | zero =>
      cases j with
      | zero => exact absurd rfl h
      | succ j' => simp [List.getD]
    | succ i' =>
      cases j with
      | zero => simp [List.getD]
      | succ j' => simpa [List.getD] using ih i' j' (by omega)

lemma getD_set_self {α : Type} (l : List α) (i : Nat) (v d : α) (h : i < l.length) :
    (l.set i v).getD i d = v := by
  induction l generalizing i with
  | nil => simp at h
  | cons a t ih =>
    cases i with
    | zero => simp [List.getD]
    | succ i' => simpa [List.getD] using ih i' (by simpa using h)

lemma getD_default_irrel {α : Type} (l : List α) (i : Nat) (d d' : α) (h : i < l.length) :
    l.getD i d = l.getD i d' := by
  induction l generalizing i with
  | nil => simp at h
  | cons a t ih =>
    cases i with
    | zero => simp [List.getD]
    | succ i' => simpa [List.getD] using ih i' (by simpa using h)

lemma getD_mem {α : Type} (l : List α) (i : Nat) (d : α) (h : i < l.length) :
    l.getD i d ∈ l := by
  induction l generalizing i with
  | nil => simp at h
  | cons a t ih =>
    cases i with
    | zero => simp [List.getD]
    | succ i' =>
      have := ih i' (by simpa using h)
      simpa [List.getD] using Or.inr this

lemma mem_set_cases {α : Type} (l : List α) (i : Nat) (v : α) :
    ∀ x ∈ l.set i v, x = v ∨ x ∈ l := by
  induction l generalizing i with
  | nil => simp
  | cons a t ih =>
    cases i with
    | zero =>
      intro x hx
      rcases List.mem_cons.mp hx with h | h
      · exact Or.inl h
      · exact Or.inr (List.mem_cons_of_mem a h)
    | succ i' =>
      intro x hx
      rcases List.mem_cons.mp hx with h | h
      · exact Or.inr (h ▸ List.mem_cons_self a t)
      · rcases ih i' x h with h' | h'
        · exact Or.inl h'
        · exact Or.inr (List.mem_cons_of_mem a h')

lemma countP_set_zero (l : List Nat) (i : Nat) (h : i < l.length)
    (hv : l.getD i 0 ≠ 0) :
    (l.set i 0).countP (fun x => x != 0) + 1 = l.countP (fun x => x != 0) := by
  induction l generalizing i with
  | nil => simp at h
  | cons a t ih =>
    cases i with
    | zero =>
      have ha : a ≠ 0 := by simpa [List.getD] using hv
      simp [List.countP_cons, ha]
    | succ i' =>
      have h' : i' < t.length := by simpa using h
      have hv' : t.getD i' 0 ≠ 0 := by simpa [List.getD] using hv
      have := ih i' h' hv'
      simp only [List.set, List.countP_cons]
      omega

lemma sum_map_set {α : Type} (g : List α) (f : α → Nat) (r : Nat) (x : α)
    (h : r < g.length) :
    ((g.set r x).map f).sum + f (g.getD r x) = (g.map f).sum + f x := by
  induction g generalizing r with
  | nil => simp at h
  | cons a t ih =>
    cases r with
    | zero => simp [List.getD]; omega
    | succ r' =>
      have := ih r' (by simpa using h)
      simp only [List.set, List.map_cons, List.sum_cons, List.getD_cons_succ]
      omega

/-- Cleaning an in-range contaminated cell decrements `countNonzero` by one. -/
lemma countNonzero_gset (g : Grid) (p : Nat × Nat)
    (h1 : p.1 < g.length) (h2 : p.2 < (g.getD p.1 []).length)
    (hv : gget g p = 1) :
    countNonzero (gset g p 0) + 1 = countNonzero g := by
  unfold countNonzero gset
  have hs := sum_map_set g rowDirty p.1 ((g.getD p.1 []).set p.2 0) h1
  rw [getD_default_irrel g p.1 ((g.getD p.1 []).set p.2 0) [] h1] at hs
  have hrow : rowDirty ((g.getD p.1 []).set p.2 0) + 1 = rowDirty (g.getD p.1 []) := by
    unfold rowDirty
    exact countP_set_zero (g.getD p.1 []) p.2 h2 (by unfold gget at hv; omega)
  omega

/-- In-bounds values are fixed by clamping. -/
lemma clampInt_of_lt (p n : Nat) (h : p < n) : clampInt (p : Int) n = p := by
  unfold clampInt; omega

lemma clampInt_lt (x : Int) (n : Nat) (h : 0 < n) : clampInt x n < n := by
  unfold clampInt; omega

/-! Claim theorems about `BaseEnv.step`. -/

/-- C4: each call to `step` increments the episode step counter by exactly 1,
and `done` is true exactly when the post-step counter has reached 400 or the
contaminated-cell count of the post-step grid is 0. -/
theorem step_increments_and_done_iff (s : EnvState) (a : Nat) :
    (BaseEnv.step s a).1.steps = s.steps + 1 ∧
    ((BaseEnv.step s a).2.2 = true ↔
      400 ≤ (BaseEnv.step s a).1.steps ∨
        countNonzero (BaseEnv.step s a).1.grid = 0) := by
  by_cases h : a = 4 ∧ gget s.grid s.pos = 1
  · simp [BaseEnv.step, h]
  · simp [BaseEnv.step, h]

/-- C1 (amended): with a well-formed state, CLEAN (action 4) on a contaminated
current cell yields reward 5.0, sets the cell to 0 and decrements the
contaminated count by exactly one; CLEAN on an already-clean current cell is
treated as a zero-delta move attempt, so it yields the step cost plus the
border penalty (-0.051) and leaves the grid unchanged. -/
theorem clean_action_spec (s : EnvState) (h : WFEnv s) :
    (gget s.grid s.pos = 1 →
      (BaseEnv.step s 4).2.1 = CLEAN_R ∧
      gget (BaseEnv.step s 4).1.grid s.pos = 0 ∧
      countNonzero (BaseEnv.step s 4).1.grid + 1 = countNonzero s.grid) ∧
    (gget s.grid s.pos ≠ 1 →
      (BaseEnv.step s 4).2.1 = STEP_COST + BORDER_PEN ∧
      (BaseEnv.step s 4).1.grid = s.grid) := by
  obtain ⟨hN, hN0, hpos, hrows, hrows0, hp1, hp2⟩ := h
  have h1 : s.pos.1 < s.grid.length := by omega
  have hrowlen : (s.grid.getD s.pos.1 []).length = s.N :=
    hrows _ (getD_mem s.grid s.pos.1 [] h1)
  have h2 : s.pos.2 < (s.grid.getD s.pos.1 []).length := by omega
  constructor
  · intro hg
    have hc : 4 = 4 ∧ gget s.grid s.pos = 1 := ⟨rfl, hg⟩
    refine ⟨by simp [BaseEnv.step, hc], ?_, ?_⟩
    · have : gget (gset s.grid s.pos 0) s.pos = 0 := by
        unfold gget gset
        rw [getD_set_self s.grid s.pos.1 _ [] h1, getD_set_self _ s.pos.2 _ 0 h2]
      simpa [BaseEnv.step, hc] using this
    · have := countNonzero_gset s.grid s.pos h1 h2 hg
      simpa [BaseEnv.step, hc] using this
  · intro hg
    have hc : ¬ (4 = 4 ∧ gget s.grid s.pos = 1) := by
      intro hcon; exact hg hcon.2
    have hr : clampInt (s.pos.1 : Int) s.N = s.pos.1 := clampInt_of_lt _ _ hp1
    have hccl : clampInt (s.pos.2 : Int) s.N = s.pos.2 := clampInt_of_lt _ _ hp2
    constructor
    · simp [BaseEnv.step, hg, delta, hr, hccl]
    · simp [BaseEnv.step, hg]

/-- C1 counterexample: on the 2×2 grid [[0,1],[0,0]] the agent starts at
(1,1), a clean cell; CLEAN returns the step cost plus the border penalty,
not merely the baseline step cost claimed. -/
theorem clean_on_clean_counterexample :
    (BaseEnv.step (BaseEnv.init [[0, 1], [0, 0]]) 4).2.1 = STEP_COST + BORDER_PEN ∧
    ¬ (BaseEnv.step (BaseEnv.init [[0, 1], [0, 0]]) 4).2.1 = STEP_COST := by
  have hred : (BaseEnv.step (BaseEnv.init [[0, 1], [0, 0]]) 4).2.1
      = STEP_COST + BORDER_PEN := rfl
  refine ⟨hred, ?_⟩
  rw [hred]
  norm_num [STEP_COST, BORDER_PEN]

/-! Case equations for `step`, and point access through `gset`. -/

lemma gget_gset_self (g : Grid) (p : Nat × Nat) (v : Nat)
    (h1 : p.1 < g.length) (h2 : p.2 < (g.getD p.1 []).length) :
    gget (gset g p v) p = v := by
  unfold gget gset
  rw [getD_set_self g p.1 _ [] h1, getD_set_self _ p.2 _ 0 h2]

lemma gget_gset_ne (g : Grid) (p q : Nat × Nat) (v : Nat)
    (h1 : p.1 < g.length) (hq : q ≠ p) :
    gget (gset g p v) q = gget g q := by
  unfold gget gset
  by_cases hr : p.1 = q.1
  · have hcne : p.2 ≠ q.2 := by
      intro hcc
      exact hq (Prod.ext hr.symm hcc.symm)
    rw [hr, getD_set_self g q.1 _ [] (hr ▸ h1)]
    rw [← hr]
    exact getD_set_of_ne _ p.2 q.2 v 0 hcne
  · rw [getD_set_of_ne g p.1 q.1 _ [] hr]

lemma step_clean_eq (s : EnvState) (h : gget s.grid s.pos = 1) :
    BaseEnv.step s 4 =
      ({ s with grid := gset s.grid s.pos 0, steps := s.steps + 1 },
       CLEAN_R,
       decide (400 ≤ s.steps + 1) ||
         decide (countNonzero (gset s.grid s.pos 0) = 0)) := by
  simp [BaseEnv.step, h]

lemma step_else_eq (s : EnvState) (a : Nat)
    (h : ¬ (a = 4 ∧ gget s.grid s.pos = 1)) :
    BaseEnv.step s a =
      ({ s with
          pos := (clampInt ((s.pos.1 : Int) + (delta a).1) s.N,
                  clampInt ((s.pos.2 : Int) + (delta a).2) s.N),
          steps := s.steps + 1 },
       (if (clampInt ((s.pos.1 : Int) + (delta a).1) s.N,
            clampInt ((s.pos.2 : Int) + (delta a).2) s.N) = s.pos
        then STEP_COST + BORDER_PEN else STEP_COST),
       decide (400 ≤ s.steps + 1) || decide (countNonzero s.grid = 0)) := by
  rw [BaseEnv.step, if_neg h]

/-- C9: `step` modifies at most the current cell and only from 1 to 0;
non-CLEAN actions leave the grid unchanged, CLEAN leaves the position
unchanged, and a clean cell stays clean. -/
theorem step_frame_effects (s : EnvState) (a : Nat) (h : WFEnv s) :
    (∀ q : Nat × Nat,
        gget (BaseEnv.step s a).1.grid q = gget s.grid q ∨
        (q = s.pos ∧ a = 4 ∧ gget s.grid q = 1 ∧
          gget (BaseEnv.step s a).1.grid q = 0)) ∧
    (a ≠ 4 → (BaseEnv.step s a).1.grid = s.grid) ∧
    (a = 4 → (BaseEnv.step s a).1.pos = s.pos) ∧
    (∀ q : Nat × Nat, gget s.grid q = 0 →
        gget (BaseEnv.step s a).1.grid q = 0) := by
  obtain ⟨hN, hN0, hpos, hrows, hrows0, hp1, hp2⟩ := h
  have h1 : s.pos.1 < s.grid.length := by omega
  have hrowlen : (s.grid.getD s.pos.1 []).length = s.N :=
    hrows _ (getD_mem s.grid s.pos.1 [] h1)
  have h2 : s.pos.2 < (s.grid.getD s.pos.1 []).length := by omega
  have hclx : clampInt (s.pos.1 : Int) s.N = s.pos.1 := clampInt_of_lt _ _ hp1
  have hcly : clampInt (s.pos.2 : Int) s.N = s.pos.2 := clampInt_of_lt _ _ hp2
  by_cases hc : a = 4 ∧ gget s.grid s.pos = 1
  · obtain ⟨ha, hg⟩ := hc
    subst ha
    rw [step_clean_eq s hg]
    refine ⟨?_, fun hne => absurd rfl hne, fun _ => rfl, ?_⟩
    · intro q
      by_cases hq : q = s.pos
      · subst hq
        exact Or.inr ⟨rfl, rfl, hg, gget_gset_self s.grid s.pos 0 h1 h2⟩
      · exact Or.inl (gget_gset_ne s.grid s.pos q 0 h1 hq)
    · intro q hq0
      by_cases hq : q = s.pos
      · subst hq
        exact gget_gset_self s.grid s.pos 0 h1 h2
      · rw [gget_gset_ne s.grid s.pos q 0 h1 hq]
        exact hq0
  · rw [step_else_eq s a hc]
    refine ⟨fun q => Or.inl rfl, fun _ => rfl, ?_, fun q hq0 => hq0⟩
    intro ha
    subst ha
    show (clampInt ((s.pos.1 : Int) + (delta 4).1) s.N,
          clampInt ((s.pos.2 : Int) + (delta 4).2) s.N) = s.pos
    simp [delta, hclx, hcly]

/-- C9 witness: on the 1×1 clean grid the UP action changes nothing in
the grid, and CLEAN leaves the position unchanged. -/
theorem step_frame_effects_witness :
    (BaseEnv.step (BaseEnv.init [[0]]) 0).1.grid = (BaseEnv.init [[0]]).grid ∧
    (BaseEnv.step (BaseEnv.init [[0]]) 4).1.pos = (BaseEnv.init [[0]]).pos := by
  have h0 := step_frame_effects (BaseEnv.init [[0]]) 0 (by decide)
  have h4 := step_frame_effects (BaseEnv.init [[0]]) 4 (by decide)
  exact ⟨h0.2.1 (by decide), h4.2.2.1 rfl⟩

/-- The fundamental state invariant holds on every reachable state. -/
lemma reachable_wf (s : EnvState) (h : Reachable s) : WFEnv s := by
  induction h with
  | init g hg =>
    obtain ⟨hl, hr⟩ := hg
    exact ⟨rfl, rfl, hl, hr, hr,
      Nat.div_lt_self hl (by norm_num), Nat.div_lt_self hl (by norm_num)⟩
  | step s a _ ih =>
    obtain ⟨hN, hN0, hpos, hrows, hrows0, hp1, hp2⟩ := ih
    have h1 : s.pos.1 < s.grid.length := by omega
    by_cases hc : a = 4 ∧ gget s.grid s.pos = 1
    · obtain ⟨ha, hg⟩ := hc
      subst ha
      rw [step_clean_eq s hg]
      refine ⟨?_, hN0, hpos, ?_, hrows0, hp1, hp2⟩
      · show s.N = (gset s.grid s.pos 0).length
        unfold gset
        rw [List.length_set]
        exact hN
      · show ∀ row ∈ gset s.grid s.pos 0, row.length = s.N
        intro row hrow
        unfold gset at hrow
        rcases mem_set_cases _ _ _ row hrow with h' | h'
        · rw [h', List.length_set]
          exact hrows _ (getD_mem s.grid s.pos.1 [] h1)
        · exact hrows _ h'
    · rw [step_else_eq s a hc]
      exact ⟨hN, hN0, hpos, hrows, hrows0,
        clampInt_lt _ _ hpos, clampInt_lt _ _ hpos⟩
  | reset s _ ih =>
    obtain ⟨hN, hN0, hpos, hrows, hrows0, hp1, hp2⟩ := ih
    exact ⟨hN0, hN0, hpos, hrows0, hrows0,
      Nat.div_lt_self hpos (by norm_num), Nat.div_lt_self hpos (by norm_num)⟩

/-- C5: on reachable states, directional moves keep the agent inside
`[0, N-1] × [0, N-1]`; a move whose unclamped target leaves the bounds
keeps the position unchanged and earns step cost plus border penalty. -/
theorem directional_moves_clamped (s : EnvState) (a : Nat)
    (hr : Reachable s) (ha : a < 4) :
    ((BaseEnv.step s a).1.pos.1 < s.N ∧ (BaseEnv.step s a).1.pos.2 < s.N) ∧
    (¬ targetInBounds s a →
      (BaseEnv.step s a).1.pos = s.pos ∧
      (BaseEnv.step s a).2.1 = STEP_COST + BORDER_PEN) := by
  obtain ⟨hN, hN0, hpos, hrows, hrows0, hp1, hp2⟩ := reachable_wf s hr
  have hc : ¬ (a = 4 ∧ gget s.grid s.pos = 1) := by
    rintro ⟨rfl, _⟩
    omega
  rw [step_else_eq s a hc]
  refine ⟨⟨clampInt_lt _ _ hpos, clampInt_lt _ _ hpos⟩, ?_⟩
  intro hout
  have key : (clampInt ((s.pos.1 : Int) + (delta a).1) s.N,
      clampInt ((s.pos.2 : Int) + (delta a).2) s.N) = s.pos := by
    unfold targetInBounds moveTarget at hout
    interval_cases a <;>
      (simp only [delta] at hout ⊢
       rw [Prod.ext_iff]
       refine ⟨?_, ?_⟩ <;> (simp only [] ; unfold clampInt ; omega))
  exact ⟨key, by rw [if_pos key]⟩

/-- C5 witness: from the 1×1 grid, moving UP from the corner is an
out-of-bounds attempt: position unchanged, reward −0.051. -/
theorem directional_moves_clamped_witness :
    (BaseEnv.step (BaseEnv.init [[0]]) 0).1.pos = (BaseEnv.init [[0]]).pos ∧
    (BaseEnv.step (BaseEnv.init [[0]]) 0).2.1 = STEP_COST + BORDER_PEN ∧
    (BaseEnv.step (BaseEnv.init [[0]]) 0).1.pos.1 < (BaseEnv.init [[0]]).N := by
  have h := directional_moves_clamped (BaseEnv.init [[0]]) 0
    (Reachable.init [[0]] (by decide)) (by decide)
  have h2 := h.2 (by decide)
  exact ⟨h2.1, h2.2, h.1.1⟩

/-- C1 witness: concrete 1×1 contaminated grid, CLEAN succeeds. -/
theorem clean_action_spec_witness :
    (BaseEnv.step (BaseEnv.init [[1]]) 4).2.1 = CLEAN_R ∧
    countNonzero (BaseEnv.step (BaseEnv.init [[1]]) 4).1.grid + 1
      = countNonzero (BaseEnv.init [[1]]).grid := by
  have h := clean_action_spec (BaseEnv.init [[1]]) (by decide)
  have h1 := h.1 (by decide)
  exact ⟨h1.1, h1.2.2⟩

/-! ε schedule (C7). -/

lemma epsInit_false : epsInit false = 1 := by
  simp [epsInit]

lemma epsInit_true : epsInit true = 1/20 := by
  simp [epsInit]

lemma epsNext_false (e : ℚ) : epsNext false e = max (e * (997/1000)) (1/20) := by
  simp [epsNext]

lemma epsNext_true (e : ℚ) : epsNext true e = e := by
  simp [epsNext]

lemma epsSeq_zero (demo : Bool) : epsSeq demo 0 = epsInit demo := rfl

lemma epsSeq_succ (demo : Bool) (n : Nat) :
    epsSeq demo (n + 1) = epsNext demo (epsSeq demo n) := rfl

lemma epsSeq_floor (n : Nat) : (1/20 : ℚ) ≤ epsSeq false n := by
  induction n with
  | zero =>
    rw [epsSeq_zero, epsInit_false]
    norm_num
  | succ n ih =>
    rw [epsSeq_succ, epsNext_false]
    exact le_max_right _ _

lemma epsSeq_demo_const (n : Nat) : epsSeq true n = 1/20 := by
  induction n with
  | zero => rw [epsSeq_zero, epsInit_true]
  | succ n ih => rw [epsSeq_succ, epsNext_true, ih]

/-- C7: in training mode ε starts at 1.0, follows the multiplicative
0.997 decay with floor 0.05 after each episode, is monotonically
non-increasing and never drops below 0.05; in demo mode it is pinned
at 0.05. -/
theorem epsilon_schedule (n : Nat) :
    epsSeq false 0 = 1 ∧
    epsSeq false (n + 1) = max (epsSeq false n * (997/1000)) (1/20) ∧
    epsSeq false (n + 1) ≤ epsSeq false n ∧
    (1/20 : ℚ) ≤ epsSeq false n ∧
    epsSeq true n = 1/20 := by
  have hf := epsSeq_floor n
  refine ⟨by rw [epsSeq_zero, epsInit_false],
    by rw [epsSeq_succ, epsNext_false], ?_, hf, epsSeq_demo_const n⟩
  have hnn : (0 : ℚ) ≤ epsSeq false n := le_trans (by norm_num) hf
  rw [epsSeq_succ, epsNext_false]
  exact max_le (mul_le_of_le_one_right hnn (by norm_num)) hf

/-! Replay buffer (C8). -/

lemma push_length_le {α : Type} (rb : ReplayBuf α) (x : α)
    (h : rb.buf.length ≤ rb.cap) :
    (rb.push x).buf.length ≤ rb.cap ∧ (rb.push x).cap = rb.cap := by
  unfold ReplayBuf.push
  refine ⟨?_, rfl⟩
  simp only [List.length_drop, List.length_append, List.length_cons,
    List.length_nil]
  omega

lemma pushAll_length_le {α : Type} (xs : List α) (rb : ReplayBuf α)
    (h : rb.buf.length ≤ rb.cap) :
    (pushAll rb xs).buf.length ≤ rb.cap ∧ (pushAll rb xs).cap = rb.cap := by
  induction xs generalizing rb with
  | nil => exact ⟨h, rfl⟩
  | cons y ys ih =>
    have hy := push_length_le rb y h
    have := ih (rb.push y) (by rw [hy.2]; exact hy.1)
    rw [hy.2] at this
    exact this

/-- C8: occupancy never exceeds capacity for any push sequence; a push at
capacity evicts exactly the oldest entry, keeping the rest in FIFO order;
the default capacity is 40 000. -/
theorem replay_capacity_and_fifo {α : Type} (cap : Nat) (xs : List α) (x : α) :
    (pushAll (mkReplayBuf cap) xs).buf.length ≤ cap ∧
    (∀ rb : ReplayBuf α, rb.buf.length = rb.cap → 0 < rb.cap →
      (rb.push x).buf = rb.buf.tail ++ [x]) ∧
    REPLAY_CAP = 40000 := by
  refine ⟨(pushAll_length_le xs (mkReplayBuf cap) (by simp [mkReplayBuf])).1,
    ?_, rfl⟩
  intro rb hlen hcap
  unfold ReplayBuf.push
  have hone : rb.buf.length + 1 - rb.cap = 1 := by omega
  rw [hone]
  cases hb : rb.buf with
  | nil =>
    rw [hb] at hlen
    simp at hlen
    omega
  | cons a t => simp

/-- C8 witness: capacity-2 buffer [10, 20] pushing 30 evicts 10; a push
trace of length 3 stays within the default capacity. -/
theorem replay_capacity_and_fifo_witness :
    (pushAll (mkReplayBuf REPLAY_CAP) [1, 2, 3]).buf.length ≤ REPLAY_CAP ∧
    (ReplayBuf.push { cap := 2, buf := [10, 20] } 30).buf = [20, 30] := by
  have h := replay_capacity_and_fifo (α := Nat) REPLAY_CAP [1, 2, 3] 30
  refine ⟨h.1, ?_⟩
  have h2 := h.2.1 { cap := 2, buf := [10, 20] } (by decide) (by decide)
  simpa using h2

/-! Target synchronization (C6). -/

/-- C6: each loop iteration advances the cumulative step counter by one;
immediately after an iteration whose cumulative step count is a multiple
of 750 the target parameters equal the policy parameters of that instant
(verbatim hard copy); otherwise the target is left untouched. -/
theorem target_sync_every_750 {θ : Type} (learn : θ → θ → ReplayBuf Trans → θ)
    (a : Nat) (demo : Bool) (s : LoopState θ) :
    (trainIter learn a demo s).1.steps = s.steps + 1 ∧
    ((trainIter learn a demo s).1.steps % 750 = 0 →
      (trainIter learn a demo s).1.target = (trainIter learn a demo s).1.policy) ∧
    ((trainIter learn a demo s).1.steps % 750 ≠ 0 →
      (trainIter learn a demo s).1.target = s.target) := by
  refine ⟨rfl, ?_, ?_⟩
  · intro h
    have h' : (s.steps + 1) % 750 = 0 := h
    simp only [trainIter]
    rw [if_pos h']
  · intro h
    have h' : ¬ (s.steps + 1) % 750 = 0 := h
    simp only [trainIter]
    rw [if_neg h']

/-- C6 witness: at cumulative step 749 the next iteration lands on 750
and hard-copies the policy into the target. -/
theorem target_sync_every_750_witness :
    (trainIter (fun p _ _ => p) 0 true
      { env := BaseEnv.init [[1]], policy := (0 : Nat), target := 1,
        rb := mkReplayBuf REPLAY_CAP, steps := 749, totalR := 0 }).1.target =
    (trainIter (fun p _ _ => p) 0 true
      { env := BaseEnv.init [[1]], policy := (0 : Nat), target := 1,
        rb := mkReplayBuf REPLAY_CAP, steps := 749, totalR := 0 }).1.policy := by
  exact (target_sync_every_750 (fun p _ _ => p) 0 true
    { env := BaseEnv.init [[1]], policy := (0 : Nat), target := 1,
      rb := mkReplayBuf REPLAY_CAP, steps := 749, totalR := 0 }).2.1 rfl

/-! The log-write TypeError (C3) and its effect on the reward log (C2). -/

/-- C3: for any run configuration with at least one episode the first
end-of-episode log write passes the unsupported `append` keyword to
`Path.write_text`, so `train` propagates a TypeError instead of
returning; no progress line is ever printed (and, the result being an
error, the end-of-run weight save and ε decay are never reached). -/
theorem train_raises_typeerror {θ : Type} (learn : θ → θ → ReplayBuf Trans → θ)
    (acts : Nat → Nat) (demo : Bool) (policy0 : θ) (env : EnvState)
    (file0 : Option String) (episodes : Nat) (h : 1 ≤ episodes) :
    (train learn acts demo policy0 env file0 episodes).2.2 =
      Except.error "TypeError: write_text() got an unexpected keyword argument append" ∧
    (train learn acts demo policy0 env file0 episodes).2.1 = [] := by
  obtain ⟨k, rfl⟩ : ∃ k, episodes = k + 1 := ⟨episodes - 1, by omega⟩
  exact ⟨rfl, rfl⟩

/-- C3 witness: a concrete demo run of 1 episode on a 1×1 grid. -/
theorem train_raises_typeerror_witness :
    (train (fun p _ _ => p) (fun _ => 4) true (7 : Nat) (BaseEnv.init [[0]])
        none 1).2.2 =
      Except.error "TypeError: write_text() got an unexpected keyword argument append" := by
  exact (train_raises_typeerror (fun p _ _ => p) (fun _ => 4) true 7
    (BaseEnv.init [[0]]) none 1 (by decide)).1

/-- C2: running `train` for one episode on a fresh log leaves the log
holding only the header — zero data rows instead of the one row per
completed episode the spec requires — because the write raises TypeError. -/
theorem reward_log_missing_data_row :
    (train (fun p _ _ => p) (fun _ => 4) false (0 : Nat) (BaseEnv.init [[1]])
        none 1).1 = some "episode,reward\n" ∧
    csvDataRows (train (fun p _ _ => p) (fun _ => 4) false (0 : Nat)
        (BaseEnv.init [[1]]) none 1).1 = 0 ∧
    (train (fun p _ _ => p) (fun _ => 4) false (0 : Nat) (BaseEnv.init [[1]])
        none 1).2.2 =
      Except.error "TypeError: write_text() got an unexpected keyword argument append" := by
  exact ⟨rfl, rfl, rfl⟩

/-! Satellite-mode configuration errors (C10). -/

/-- C10: requesting the satellite environment without pillow raises the
actionable pillow ImportError; with pillow but without OpenCV it raises
the actionable OpenCV ImportError — in both cases before any environment
state exists; with both capabilities present and a loadable image the
constructor succeeds. -/
theorem satellite_capability_errors (cv2Available : Bool)
    (decoded : Option RGBImage) (maskFn : RGBImage → Grid) (img : RGBImage) :
    SatelliteEnv.init false cv2Available decoded maskFn =
      Except.error "ImportError: Instala pillow para imágenes satelitales." ∧
    SatelliteEnv.init true false (some img) maskFn =
      Except.error "ImportError: Instala opencv-python para detectar contaminación." ∧
    ∃ st : SatEnvState,
      SatelliteEnv.init true true (some img) maskFn = Except.ok st := by
  exact ⟨rfl, rfl, ⟨{ base := BaseEnv.init (maskFn img), rgb := img }, rfl⟩⟩

end RLCleaner
